import Mathlib

/-!
# The identity cache of `pkg/config/config.go`

A shallow embedding of `FileConfig` (`NewFileConfig`, `Load`, `Get`,
`getCacheItem`) and the properties of its reload/lookup behaviour.

Modelling decisions:

* A `*FileConfig` is a value of the structure `FileConfig`; a method that assigns
  to fields of its receiver returns the new value (state passing).  The fields
  `watcher` and `mu` hold no data that `Load` or `Get` reads or writes, and are
  left out: the development describes sequential executions.  The lock and
  unlock operations of `Load` appear in `LoadSteps`, the sequence of steps of
  one call.
* A Go `map[Identity]bool` is a `Finmap` (a finite map with extensional
  equality); a map variable that may be `nil` is an `Option` of it.
* A Go `[]byte` argument is `Option (List UInt8)`: `none` is the `nil` slice.
* `json.Unmarshal` is a library routine outside this repository.  It is a
  parameter `unmarshal` of `Load`: every theorem holds for every decoder.
-/

namespace config

/-- Modelled from the spec: the type declaration of `Identity` is not in
`config.go`.  The spec gives `{namespace: string, serviceAccount: string}`, and
`Get` and the tests build it from exactly the fields `Namespace` and
`ServiceAccount`. -/
structure Identity where
  Namespace : String
  ServiceAccount : String
  deriving DecidableEq, Repr

/-- Modelled from the spec: the type declaration of `IdentityConfigObject` is not
in `config.go`.  The spec gives `{identities: ordered sequence of Identity}`, and
`Load` and the tests use the one field `Identities`. -/
structure IdentityConfigObject where
  Identities : List Identity
  deriving DecidableEq, Repr

/-- The struct `ContainerCredentialsPatchConfig`. -/
structure ContainerCredentialsPatchConfig where
  Audience : String
  FullUri : String
  deriving DecidableEq, Repr

/-- A Go `map[Identity]bool` that is not `nil`. -/
abbrev IdentityMap : Type := Finmap (fun _ : Identity => Bool)

/-- The data fields of the struct `FileConfig`. `identityConfigObject` is a
pointer (`none` is `nil`), `cache` is a map variable (`none` is the `nil` map). -/
structure FileConfig where
  containerCredentialsAudience : String
  containersCredentialsFullUri : String
  identityConfigObject : Option IdentityConfigObject
  cache : Option IdentityMap
  deriving DecidableEq

/-- The type of `json.Unmarshal(content, &configObject)`: an error (its message),
or the decoded object. -/
abbrev Unmarshal : Type := List UInt8 → Except String IdentityConfigObject

instance : DecidableEq (Except String IdentityConfigObject) := fun x y =>
  match x, y with
  | .error e₁, .error e₂ =>
    if h : e₁ = e₂ then isTrue (by rw [h]) else isFalse (fun h2 => h (Except.error.inj h2))
  | .ok o₁, .ok o₂ =>
    if h : o₁ = o₂ then isTrue (by rw [h]) else isFalse (fun h2 => h (Except.ok.inj h2))
  | .error _, .ok _ => isFalse (fun h => by cases h)
  | .ok _, .error _ => isFalse (fun h => by cases h)

/-- The function `NewFileConfig`: `identityConfigObject: nil`,
`cache: make(map[Identity]bool)`. -/
def NewFileConfig (containersCredentialsAudience containersCredentialsFullUri : String) :
    FileConfig :=
  { containerCredentialsAudience := containersCredentialsAudience
    containersCredentialsFullUri := containersCredentialsFullUri
    identityConfigObject := none
    cache := some ∅ }

/-- The loop of `Load` over `configObject.Identities`, starting from
`make(map[Identity]bool)`: `newCache[item] = true` for each item in order. -/
def buildCache (identities : List Identity) : IdentityMap :=
  identities.foldl (fun newCache item => newCache.insert item true) ∅

/-- The method `FileConfig.Load`. The result is the receiver after the call and
the returned `error` (`none` is the `nil` error). -/
def Load (unmarshal : Unmarshal) (f : FileConfig) (content : Option (List UInt8)) :
    FileConfig × Option String :=
  match content with
  | none => ({ f with identityConfigObject := none, cache := none }, none)
  | some bytes =>
    if bytes.length = 0 then
      ({ f with identityConfigObject := none, cache := none }, none)
    else
      match unmarshal bytes with
      | .error err => (f, some ("error Unmarshalling config file: " ++ err))
      | .ok configObject =>
        ({ f with identityConfigObject := some configObject
                  cache := some (buildCache configObject.Identities) }, none)

/-- The method `FileConfig.getCacheItem`: `f.cache[identity]`, which is `false`
(the zero value) on a `nil` map and on a key that is not in the map. -/
def getCacheItem (f : FileConfig) (identity : Identity) : Bool :=
  match f.cache with
  | none => false
  | some cache => (cache.lookup identity).getD false

/-- The method `FileConfig.Get`: `none` is the `nil` result. -/
def Get (f : FileConfig) (namespace_ serviceAccount : String) :
    Option ContainerCredentialsPatchConfig :=
  let key : Identity := { Namespace := namespace_, ServiceAccount := serviceAccount }
  if getCacheItem f key then
    some { Audience := f.containerCredentialsAudience
           FullUri := f.containersCredentialsFullUri }
  else
    none

/-- The receiver after a sequence of `Load` calls, oldest first, whatever each
returned. -/
def loadAll (unmarshal : Unmarshal) (f : FileConfig) (contents : List (Option (List UInt8))) :
    FileConfig :=
  contents.foldl (fun g content => (Load unmarshal g content).1) f

/-! ## Concrete data of the test suite -/

/-- The bytes of an ASCII string literal. -/
def bytesOf (s : String) : List UInt8 :=
  s.toList.map (fun c => UInt8.ofNat c.toNat)

/-- The function `defaultConfigObject` of `config_test.go`. -/
def defaultConfigObject : IdentityConfigObject :=
  { Identities := [ { Namespace := "foo", ServiceAccount := "ns-foo-sa" },
                    { Namespace := "bar", ServiceAccount := "ns-bar-sa" } ] }

/-- The object `newConfigObject` of `TestFileConfig_Watcher`: the default one with
`new-ns/new-sa` appended. -/
def newConfigObject : IdentityConfigObject :=
  { Identities := defaultConfigObject.Identities ++
      [ { Namespace := "new-ns", ServiceAccount := "new-sa" } ] }

/-- The file content of the default config object, in the file format of the
spec. -/
def defaultConfigObjectBytes : List UInt8 :=
  bytesOf "\x7b\"identities\":[\x7b\"namespace\":\"foo\",\"serviceAccount\":\"ns-foo-sa\"\x7d,\x7b\"namespace\":\"bar\",\"serviceAccount\":\"ns-bar-sa\"\x7d]\x7d"

/-- The file content of `newConfigObject`. -/
def newConfigObjectBytes : List UInt8 :=
  bytesOf "\x7b\"identities\":[\x7b\"namespace\":\"foo\",\"serviceAccount\":\"ns-foo-sa\"\x7d,\x7b\"namespace\":\"bar\",\"serviceAccount\":\"ns-bar-sa\"\x7d,\x7b\"namespace\":\"new-ns\",\"serviceAccount\":\"new-sa\"\x7d]\x7d"

/-- The malformed input of `TestFileConfig_Load`. -/
def badJson : List UInt8 :=
  bytesOf "bad json"

/-- A decoder for concrete runs. It decodes the two documents above and rejects
every other input, `bad json` among them; the theorems do not depend on it. -/
def sampleUnmarshal : Unmarshal := fun bytes =>
  if bytes = defaultConfigObjectBytes then
    .ok defaultConfigObject
  else if bytes = newConfigObjectBytes then
    .ok newConfigObject
  else
    .error "invalid character"

/-! ## Notions used to state the properties -/

/-- The identities that a content lists: none for nil content, for zero-length
content and for content that `unmarshal` rejects; the decoded `Identities`
otherwise. -/
def listedIdentities (unmarshal : Unmarshal) (content : Option (List UInt8)) : List Identity :=
  match content with
  | none => []
  | some bytes =>
    if bytes.length = 0 then []
    else
      match unmarshal bytes with
      | .error _ => []
      | .ok configObject => configObject.Identities

/-- The most recent `Load` call of a sequence that returned no error: the calls
run in order from the receiver `f`, and `latest` is the answer so far. -/
def lastSuccessful (unmarshal : Unmarshal) :
    FileConfig → List (Option (List UInt8)) → Option (Option (List UInt8)) →
      Option (Option (List UInt8))
  | _, [], latest => latest
  | f, content :: rest, latest =>
    lastSuccessful unmarshal (Load unmarshal f content).1 rest
      (if (Load unmarshal f content).2.isNone then some content else latest)

/-- The identity list of the most recent `Load` call that returned no error, and
the empty list when no call did. -/
def installedIdentities (unmarshal : Unmarshal) (f : FileConfig)
    (contents : List (Option (List UInt8))) : List Identity :=
  match lastSuccessful unmarshal f contents none with
  | none => []
  | some content => listedIdentities unmarshal content

/-- The `Identities` list of the stored raw object; a `nil` raw object lists
nothing. -/
def rawIdentities (f : FileConfig) : List Identity :=
  match f.identityConfigObject with
  | none => []
  | some configObject => configObject.Identities

/-- Whether an identity is a key of the snapshot map; the `nil` map has no key. -/
def inSnapshot (f : FileConfig) (identity : Identity) : Bool :=
  match f.cache with
  | none => false
  | some cache => decide (identity ∈ cache)

/-- A call on a cache: `Load content` or `Get namespace serviceAccount`. -/
inductive Call where
  | load (content : Option (List UInt8))
  | get (namespace_ serviceAccount : String)
  deriving DecidableEq

/-- The receiver after one call. `Load` returns the receiver it assigned to; `Get`
and `getCacheItem` contain no assignment to a field of the receiver. -/
def Call.run (unmarshal : Unmarshal) (f : FileConfig) : Call → FileConfig
  | .load content => (Load unmarshal f content).1
  | .get _ _ => f

/-- The receiver after a sequence of calls, oldest first. -/
def runCalls (unmarshal : Unmarshal) (f : FileConfig) (calls : List Call) : FileConfig :=
  calls.foldl (Call.run unmarshal) f

/-- The length `len(f.cache)` of the snapshot map; the `nil` map has length 0. -/
def cacheLen (f : FileConfig) : Nat :=
  match f.cache with
  | none => 0
  | some cache => cache.keys.card

/-! ## The steps of one `Load` call -/

/-- A step of the body of `Load`: one for each statement that touches the mutex,
the decoder, the local map `newCache` or a field of the receiver. The logging
statements are left out. -/
inductive Step where
  /-- The statement `f.mu.Lock()`. -/
  | lock
  /-- The deferred `f.mu.Unlock()`. -/
  | unlock
  /-- The call `json.Unmarshal(content, &configObject)`. -/
  | jsonUnmarshal
  /-- The statement `newCache := make(map[Identity]bool)`. -/
  | makeCache
  /-- The statement `newCache[item] = true`. -/
  | insert (item : Identity)
  /-- The statements `f.identityConfigObject = nil` and
  `f.identityConfigObject = &configObject`. -/
  | setObject (configObject : Option IdentityConfigObject)
  /-- The statement `f.cache = nil`. -/
  | setCacheNil
  /-- The statement `f.cache = newCache`. -/
  | setCacheNew
  deriving DecidableEq

/-- The steps of `Load` on a content, in the order its body runs them. The
lock is taken by the first statement; the deferred unlock runs last on each of
the three return paths. -/
def LoadSteps (unmarshal : Unmarshal) (content : Option (List UInt8)) : List Step :=
  match content with
  | none => [.lock, .setObject none, .setCacheNil, .unlock]
  | some bytes =>
    if bytes.length = 0 then
      [.lock, .setObject none, .setCacheNil, .unlock]
    else
      match unmarshal bytes with
      | .error _ => [.lock, .jsonUnmarshal, .unlock]
      | .ok configObject =>
        [.lock, .jsonUnmarshal, .makeCache] ++ configObject.Identities.map Step.insert ++
          [.setObject (some configObject), .setCacheNew, .unlock]

/-- What the steps act on: the receiver, the local variable `newCache`, and
whether the write lock of `mu` is held. -/
structure Frame where
  f : FileConfig
  newCache : IdentityMap
  locked : Bool
  deriving DecidableEq

/-- The effect of one step. -/
def Step.run (m : Frame) : Step → Frame
  | .lock => { m with locked := true }
  | .unlock => { m with locked := false }
  | .jsonUnmarshal => m
  | .makeCache => { m with newCache := ∅ }
  | .insert item => { m with newCache := m.newCache.insert item true }
  | .setObject configObject => { m with f := { m.f with identityConfigObject := configObject } }
  | .setCacheNil => { m with f := { m.f with cache := none } }
  | .setCacheNew => { m with f := { m.f with cache := some m.newCache } }

/-- The effect of a sequence of steps, first step first. -/
def runSteps (m : Frame) (steps : List Step) : Frame :=
  steps.foldl Step.run m

/-- Whether a step parses the content or builds the new snapshot map. -/
def Step.isConstruction : Step → Bool
  | .jsonUnmarshal => true
  | .makeCache => true
  | .insert _ => true
  | _ => false

/-- Whether a step installs state: an assignment to a field of the receiver. -/
def Step.isInstall : Step → Bool
  | .setObject _ => true
  | .setCacheNil => true
  | .setCacheNew => true
  | _ => false

/-- The steps of a sequence that run while the write lock is held: those after a
`lock` and before the next `unlock`. `held` tells whether the lock is held at the
start. -/
def stepsUnderLock : Bool → List Step → List Step
  | _, [] => []
  | held, step :: rest =>
    match step with
    | .lock => stepsUnderLock true rest
    | .unlock => stepsUnderLock false rest
    | _ => if held then step :: stepsUnderLock held rest else stepsUnderLock held rest

/-! ## More concrete data -/

/-- A config object that lists the identities of the default one in another order
and `foo/ns-foo-sa` twice. -/
def duplicatedConfigObject : IdentityConfigObject :=
  { Identities := [ { Namespace := "bar", ServiceAccount := "ns-bar-sa" },
                    { Namespace := "foo", ServiceAccount := "ns-foo-sa" },
                    { Namespace := "foo", ServiceAccount := "ns-foo-sa" } ] }

/-- The file content of `duplicatedConfigObject`. -/
def duplicatedConfigObjectBytes : List UInt8 :=
  bytesOf "\x7b\"identities\":[\x7b\"namespace\":\"bar\",\"serviceAccount\":\"ns-bar-sa\"\x7d,\x7b\"namespace\":\"foo\",\"serviceAccount\":\"ns-foo-sa\"\x7d,\x7b\"namespace\":\"foo\",\"serviceAccount\":\"ns-foo-sa\"\x7d]\x7d"

/-- A file content that lists no identity. -/
def emptyConfigObjectBytes : List UInt8 :=
  bytesOf "\x7b\"identities\":[]\x7d"

/-- A decoder for concrete runs that also decodes the two documents above; on
every other input it is `sampleUnmarshal`. -/
def extendedUnmarshal : Unmarshal := fun bytes =>
  if bytes = duplicatedConfigObjectBytes then
    .ok duplicatedConfigObject
  else if bytes = emptyConfigObjectBytes then
    .ok { Identities := [] }
  else
    sampleUnmarshal bytes

/-- An encoder for concrete runs, standing for `json.Marshal`: it writes the file
format of the spec, for identities whose names need no escaping. -/
def sampleMarshal (configObject : IdentityConfigObject) : List UInt8 :=
  bytesOf ("\x7b\"identities\":[" ++
    ",".intercalate (configObject.Identities.map (fun item =>
      "\x7b\"namespace\":\"" ++ item.Namespace ++ "\",\"serviceAccount\":\"" ++
        item.ServiceAccount ++ "\"\x7d")) ++ "]\x7d")

/-- The file content `null`, the encoding that `json.Marshal` gives a nil
pointer. -/
def nullBytes : List UInt8 :=
  bytesOf "null"

/-- An encoder of a `*IdentityConfigObject` for concrete runs: `null` for the nil
pointer, as `json.Marshal` writes it, and `sampleMarshal` of the object pointed to
otherwise. -/
def sampleMarshalPointer : Option IdentityConfigObject → List UInt8
  | none => nullBytes
  | some configObject => sampleMarshal configObject

/-- A decoder for concrete runs that also decodes `null`: on it `json.Unmarshal`
returns no error and leaves `configObject` as declared, the zero object. On every
other input it is `extendedUnmarshal`. -/
def nullUnmarshal : Unmarshal := fun bytes =>
  if bytes = nullBytes then
    .ok { Identities := [] }
  else
    extendedUnmarshal bytes

/-! ## Lemmas on the snapshot map and on `Load` -/

theorem lookup_foldl_insert (identities : List Identity) (m : IdentityMap) (i : Identity) :
    (identities.foldl (fun newCache item => newCache.insert item true) m).lookup i
      = if i ∈ identities then some true else m.lookup i := by
  induction identities generalizing m with
  | nil => simp
  | cons x xs ih =>
    simp only [List.foldl_cons, ih, List.mem_cons]
    by_cases hx : i ∈ xs
    · simp [hx]
    · by_cases hix : i = x
      · subst hix
        simp [hx, Finmap.lookup_insert]
      · simp [hx, hix, Finmap.lookup_insert_of_ne]

theorem lookup_buildCache (identities : List Identity) (i : Identity) :
    (buildCache identities).lookup i = if i ∈ identities then some true else none := by
  unfold buildCache
  rw [lookup_foldl_insert, Finmap.lookup_empty]

theorem mem_buildCache (identities : List Identity) (i : Identity) :
    i ∈ buildCache identities ↔ i ∈ identities := by
  rw [← Finmap.lookup_isSome, lookup_buildCache]
  by_cases h : i ∈ identities <;> simp [h]

theorem getCacheItem_buildCache (f : FileConfig) (identities : List Identity)
    (h : f.cache = some (buildCache identities)) (i : Identity) :
    getCacheItem f i = decide (i ∈ identities) := by
  unfold getCacheItem
  rw [h]
  simp only [lookup_buildCache]
  by_cases hi : i ∈ identities <;> simp [hi]

theorem getCacheItem_nil (f : FileConfig) (h : f.cache = none) (i : Identity) :
    getCacheItem f i = false := by
  unfold getCacheItem
  rw [h]

theorem Get_buildCache (f : FileConfig) (identities : List Identity)
    (h : f.cache = some (buildCache identities)) (ns sa : String) :
    Get f ns sa =
      if ({ Namespace := ns, ServiceAccount := sa } : Identity) ∈ identities
      then some { Audience := f.containerCredentialsAudience
                  FullUri := f.containersCredentialsFullUri }
      else none := by
  unfold Get
  simp only [getCacheItem_buildCache f identities h, decide_eq_true_eq]

theorem Get_nil (f : FileConfig) (h : f.cache = none) (ns sa : String) :
    Get f ns sa = none := by
  unfold Get
  simp only [getCacheItem_nil f h]
  rfl

theorem Load_nil (unmarshal : Unmarshal) (f : FileConfig) :
    Load unmarshal f none = ({ f with identityConfigObject := none, cache := none }, none) :=
  rfl

theorem Load_empty (unmarshal : Unmarshal) (f : FileConfig) :
    Load unmarshal f (some []) =
      ({ f with identityConfigObject := none, cache := none }, none) :=
  rfl

theorem Load_ok (unmarshal : Unmarshal) (f : FileConfig) (bytes : List UInt8)
    (configObject : IdentityConfigObject) (hne : bytes ≠ [])
    (hparse : unmarshal bytes = .ok configObject) :
    Load unmarshal f (some bytes) =
      ({ f with identityConfigObject := some configObject
                cache := some (buildCache configObject.Identities) }, none) := by
  have hlen : ¬ bytes.length = 0 := by simpa using hne
  simp only [Load, hlen, if_false, hparse]

theorem Load_error (unmarshal : Unmarshal) (f : FileConfig) (bytes : List UInt8)
    (err : String) (hne : bytes ≠ []) (hparse : unmarshal bytes = .error err) :
    Load unmarshal f (some bytes) = (f, some ("error Unmarshalling config file: " ++ err)) := by
  have hlen : ¬ bytes.length = 0 := by simpa using hne
  simp only [Load, hlen, if_false, hparse]

theorem Load_audience (unmarshal : Unmarshal) (f : FileConfig) (content : Option (List UInt8)) :
    (Load unmarshal f content).1.containerCredentialsAudience = f.containerCredentialsAudience ∧
    (Load unmarshal f content).1.containersCredentialsFullUri = f.containersCredentialsFullUri := by
  unfold Load
  split
  · exact ⟨rfl, rfl⟩
  · split
    · exact ⟨rfl, rfl⟩
    · split <;> exact ⟨rfl, rfl⟩

theorem loadAll_audience (unmarshal : Unmarshal) (contents : List (Option (List UInt8)))
    (f : FileConfig) :
    (loadAll unmarshal f contents).containerCredentialsAudience = f.containerCredentialsAudience ∧
    (loadAll unmarshal f contents).containersCredentialsFullUri =
      f.containersCredentialsFullUri := by
  induction contents generalizing f with
  | nil => exact ⟨rfl, rfl⟩
  | cons c cs ih =>
    have h := ih (Load unmarshal f c).1
    have h2 := Load_audience unmarshal f c
    exact ⟨h.1.trans h2.1, h.2.trans h2.2⟩

theorem loadAll_nil (unmarshal : Unmarshal) (f : FileConfig) :
    loadAll unmarshal f [] = f :=
  rfl

theorem loadAll_cons (unmarshal : Unmarshal) (f : FileConfig) (content : Option (List UInt8))
    (rest : List (Option (List UInt8))) :
    loadAll unmarshal f (content :: rest) = loadAll unmarshal (Load unmarshal f content).1 rest :=
  rfl

theorem loadAll_append (unmarshal : Unmarshal) (f : FileConfig)
    (xs ys : List (Option (List UInt8))) :
    loadAll unmarshal f (xs ++ ys) = loadAll unmarshal (loadAll unmarshal f xs) ys := by
  simp [loadAll, List.foldl_append]

theorem Load_cases (unmarshal : Unmarshal) (f : FileConfig) (content : Option (List UInt8)) :
    ((Load unmarshal f content).2.isSome = true ∧ (Load unmarshal f content).1 = f ∧
      ∃ bytes err, content = some bytes ∧ bytes ≠ [] ∧ unmarshal bytes = .error err) ∨
    ((Load unmarshal f content).2 = none ∧ (content = none ∨ content = some []) ∧
      (Load unmarshal f content).1.identityConfigObject = none ∧
      (Load unmarshal f content).1.cache = none) ∨
    ((Load unmarshal f content).2 = none ∧
      ∃ bytes configObject, content = some bytes ∧ bytes ≠ [] ∧
        unmarshal bytes = .ok configObject ∧
        (Load unmarshal f content).1.identityConfigObject = some configObject ∧
        (Load unmarshal f content).1.cache = some (buildCache configObject.Identities)) := by
  cases content with
  | none => exact Or.inr (Or.inl ⟨rfl, Or.inl rfl, rfl, rfl⟩)
  | some bytes =>
    by_cases hne : bytes = []
    · subst hne
      exact Or.inr (Or.inl ⟨rfl, Or.inr rfl, rfl, rfl⟩)
    · cases hp : unmarshal bytes with
      | error err =>
        rw [Load_error unmarshal f bytes err hne hp]
        exact Or.inl ⟨rfl, rfl, bytes, err, rfl, hne, hp⟩
      | ok configObject =>
        rw [Load_ok unmarshal f bytes configObject hne hp]
        exact Or.inr (Or.inr ⟨rfl, bytes, configObject, rfl, hne, hp, rfl, rfl⟩)

theorem listedIdentities_ok (unmarshal : Unmarshal) (bytes : List UInt8)
    (configObject : IdentityConfigObject) (hne : bytes ≠ [])
    (hparse : unmarshal bytes = .ok configObject) :
    listedIdentities unmarshal (some bytes) = configObject.Identities := by
  have hlen : ¬ bytes.length = 0 := by simpa using hne
  simp only [listedIdentities, hlen, if_false, hparse]

theorem Get_isSome (f : FileConfig) (ns sa : String) :
    (Get f ns sa).isSome = getCacheItem f { Namespace := ns, ServiceAccount := sa } := by
  unfold Get
  cases h : getCacheItem f { Namespace := ns, ServiceAccount := sa } <;> simp [h]

theorem getCacheItem_Load (unmarshal : Unmarshal) (f : FileConfig)
    (content : Option (List UInt8)) (i : Identity) :
    getCacheItem (Load unmarshal f content).1 i =
      if (Load unmarshal f content).2.isNone then decide (i ∈ listedIdentities unmarshal content)
      else getCacheItem f i := by
  rcases Load_cases unmarshal f content with ⟨herr, hsame, -⟩ | ⟨hok, hc, -, hcache⟩ |
    ⟨hok, bytes, configObject, hc, hne, hp, -, hcache⟩
  · rw [hsame]
    cases h : (Load unmarshal f content).2 with
    | none => rw [h] at herr; cases herr
    | some e => rfl
  · rw [hok, getCacheItem_nil _ hcache]
    rcases hc with hc | hc <;> subst hc <;> rfl
  · rw [hok, getCacheItem_buildCache _ configObject.Identities hcache, hc,
      listedIdentities_ok unmarshal bytes configObject hne hp]
    rfl

theorem getCacheItem_loadAll (unmarshal : Unmarshal) (contents : List (Option (List UInt8)))
    (f : FileConfig) (latest : Option (Option (List UInt8))) (i : Identity)
    (hinv : getCacheItem f i =
      match latest with
      | none => false
      | some content => decide (i ∈ listedIdentities unmarshal content)) :
    getCacheItem (loadAll unmarshal f contents) i =
      match lastSuccessful unmarshal f contents latest with
      | none => false
      | some content => decide (i ∈ listedIdentities unmarshal content) := by
  induction contents generalizing f latest with
  | nil => exact hinv
  | cons c cs ih =>
    rw [loadAll_cons, lastSuccessful]
    apply ih
    rw [getCacheItem_Load]
    cases h : (Load unmarshal f c).2.isNone
    · simpa using hinv
    · simp

theorem lastSuccessful_mem (unmarshal : Unmarshal) (contents : List (Option (List UInt8)))
    (f : FileConfig) (latest : Option (Option (List UInt8))) :
    lastSuccessful unmarshal f contents latest = latest ∨
      ∃ content, content ∈ contents ∧
        lastSuccessful unmarshal f contents latest = some content := by
  induction contents generalizing f latest with
  | nil => exact Or.inl rfl
  | cons c cs ih =>
    rw [lastSuccessful]
    rcases ih (Load unmarshal f c).1
        (if (Load unmarshal f c).2.isNone then some c else latest) with h | ⟨d, hd, h⟩
    · rw [h]
      cases (Load unmarshal f c).2.isNone
      · exact Or.inl rfl
      · exact Or.inr ⟨c, List.mem_cons_self c cs, rfl⟩
    · exact Or.inr ⟨d, List.mem_cons_of_mem c hd, h⟩

theorem snapshot_agrees_Load (unmarshal : Unmarshal) (f : FileConfig)
    (content : Option (List UInt8))
    (hinv : ∀ i, inSnapshot f i = true ↔ i ∈ rawIdentities f) (i : Identity) :
    inSnapshot (Load unmarshal f content).1 i = true ↔
      i ∈ rawIdentities (Load unmarshal f content).1 := by
  rcases Load_cases unmarshal f content with ⟨-, hsame, -⟩ | ⟨-, -, hraw, hcache⟩ |
    ⟨-, bytes, configObject, -, -, -, hraw, hcache⟩
  · rw [hsame]
    exact hinv i
  · simp [inSnapshot, rawIdentities, hraw, hcache]
  · simp [inSnapshot, rawIdentities, hraw, hcache, mem_buildCache]

theorem runCalls_audience (unmarshal : Unmarshal) (calls : List Call) (f : FileConfig) :
    (runCalls unmarshal f calls).containerCredentialsAudience = f.containerCredentialsAudience ∧
    (runCalls unmarshal f calls).containersCredentialsFullUri =
      f.containersCredentialsFullUri := by
  induction calls generalizing f with
  | nil => exact ⟨rfl, rfl⟩
  | cons c cs ih =>
    have h := ih (Call.run unmarshal f c)
    have h2 : (Call.run unmarshal f c).containerCredentialsAudience =
          f.containerCredentialsAudience ∧
        (Call.run unmarshal f c).containersCredentialsFullUri =
          f.containersCredentialsFullUri := by
      cases c with
      | load content => exact Load_audience unmarshal f content
      | get ns sa => exact ⟨rfl, rfl⟩
    exact ⟨h.1.trans h2.1, h.2.trans h2.2⟩

theorem runSteps_append (m : Frame) (xs ys : List Step) :
    runSteps m (xs ++ ys) = runSteps (runSteps m xs) ys := by
  simp [runSteps, List.foldl_append]

theorem runSteps_insert (identities : List Identity) (m : Frame) :
    runSteps m (identities.map Step.insert) =
      { m with newCache :=
          identities.foldl (fun newCache item => newCache.insert item true) m.newCache } := by
  induction identities generalizing m with
  | nil => rfl
  | cons x xs ih =>
    have h := ih (Step.run m (Step.insert x))
    simpa [runSteps, Step.run] using h

theorem stepsUnderLock_insert (identities : List Identity) (rest : List Step) :
    stepsUnderLock true (identities.map Step.insert ++ rest) =
      identities.map Step.insert ++ stepsUnderLock true rest := by
  induction identities with
  | nil => rfl
  | cons x xs ih => simp [stepsUnderLock, ih]

theorem all_isConstruction_insert (identities : List Identity) :
    (identities.map Step.insert).all Step.isConstruction = true := by
  simp [Step.isConstruction]

theorem keys_buildCache (identities : List Identity) :
    (buildCache identities).keys = identities.toFinset := by
  ext i
  rw [Finmap.mem_keys, mem_buildCache, List.mem_toFinset]

theorem buildCache_congr (xs ys : List Identity) (h : ∀ i, i ∈ xs ↔ i ∈ ys) :
    buildCache xs = buildCache ys := by
  apply Finmap.ext_lookup
  intro i
  rw [lookup_buildCache, lookup_buildCache]
  by_cases hi : i ∈ xs
  · rw [if_pos hi, if_pos ((h i).mp hi)]
  · rw [if_neg hi, if_neg (fun hy => hi ((h i).mpr hy))]

theorem loadAll_cache (unmarshal : Unmarshal) (contents : List (Option (List UInt8)))
    (f : FileConfig)
    (hf : f.cache = none ∨ ∃ identities, f.cache = some (buildCache identities)) :
    (loadAll unmarshal f contents).cache = none ∨
      ∃ identities, (loadAll unmarshal f contents).cache = some (buildCache identities) := by
  induction contents generalizing f with
  | nil => exact hf
  | cons c cs ih =>
    rw [loadAll_cons]
    apply ih
    rcases Load_cases unmarshal f c with ⟨-, hsame, -⟩ | ⟨-, -, -, hcache⟩ |
      ⟨-, bytes, configObject, -, -, -, -, hcache⟩
    · rw [hsame]
      exact hf
    · exact Or.inl hcache
    · exact Or.inr ⟨configObject.Identities, hcache⟩

theorem getCacheItem_eq_inSnapshot (f : FileConfig)
    (hf : f.cache = none ∨ ∃ identities, f.cache = some (buildCache identities))
    (i : Identity) :
    getCacheItem f i = inSnapshot f i := by
  rcases hf with h | ⟨identities, h⟩
  · simp [getCacheItem, inSnapshot, h]
  · rw [getCacheItem_buildCache f identities h]
    simp [inSnapshot, h, mem_buildCache]

/-! ## The claims -/

/-- Claim C1: for a cache built by `NewFileConfig a u`, after any prior sequence of
`Load` calls, loading a non-empty content that parses to a config object returns no
error, and afterwards `Get ns sa` is the patch config with audience `a` and
full URI `u` when the identity `ns/sa` occurs in the parsed list, and is `nil`
when it does not. -/
theorem load_valid_then_get (unmarshal : Unmarshal) (a u : String)
    (prior : List (Option (List UInt8))) (bytes : List UInt8)
    (configObject : IdentityConfigObject) (hne : bytes ≠ [])
    (hparse : unmarshal bytes = .ok configObject) :
    (Load unmarshal (loadAll unmarshal (NewFileConfig a u) prior) (some bytes)).2 = none ∧
    ∀ ns sa : String,
      Get (Load unmarshal (loadAll unmarshal (NewFileConfig a u) prior) (some bytes)).1 ns sa =
        if ({ Namespace := ns, ServiceAccount := sa } : Identity) ∈ configObject.Identities
        then some { Audience := a, FullUri := u } else none := by
  rw [Load_ok unmarshal _ bytes configObject hne hparse]
  refine ⟨rfl, fun ns sa => ?_⟩
  have haud := loadAll_audience unmarshal prior (NewFileConfig a u)
  rw [Get_buildCache _ configObject.Identities rfl]
  simp only [haud.1, haud.2]
  rfl

/-- Witness of C1: the default config loaded after a clearing and a malformed
load. -/
theorem load_valid_then_get_witness :
    defaultConfigObjectBytes ≠ [] ∧
    sampleUnmarshal defaultConfigObjectBytes = .ok defaultConfigObject ∧
    (Load sampleUnmarshal (loadAll sampleUnmarshal (NewFileConfig "aud" "uri")
        [none, some badJson]) (some defaultConfigObjectBytes)).2 = none ∧
    ∀ ns sa : String,
      Get (Load sampleUnmarshal (loadAll sampleUnmarshal (NewFileConfig "aud" "uri")
        [none, some badJson]) (some defaultConfigObjectBytes)).1 ns sa =
        if ({ Namespace := ns, ServiceAccount := sa } : Identity) ∈ defaultConfigObject.Identities
        then some { Audience := "aud", FullUri := "uri" } else none :=
  ⟨by decide, by decide,
    load_valid_then_get sampleUnmarshal "aud" "uri" [none, some badJson]
      defaultConfigObjectBytes defaultConfigObject (by decide) (by decide)⟩

/-- Claim C2: in every state reached from `NewFileConfig` by `Load` calls, a `Load`
of non-empty content that fails to parse returns an error and leaves the receiver
as it was: the raw object and the snapshot are unchanged, so every `Get` returns
what it returned before; and when the preceding call was a clearing `Load` (nil or
zero-length content), every `Get` still returns `nil` after the failed one. -/
theorem load_malformed_no_mutation (unmarshal : Unmarshal) (a u : String)
    (prior : List (Option (List UInt8))) (bytes : List UInt8) (err : String)
    (hne : bytes ≠ []) (hparse : unmarshal bytes = .error err) :
    (Load unmarshal (loadAll unmarshal (NewFileConfig a u) prior) (some bytes)).2.isSome = true ∧
    (Load unmarshal (loadAll unmarshal (NewFileConfig a u) prior) (some bytes)).1.identityConfigObject
      = (loadAll unmarshal (NewFileConfig a u) prior).identityConfigObject ∧
    (Load unmarshal (loadAll unmarshal (NewFileConfig a u) prior) (some bytes)).1.cache
      = (loadAll unmarshal (NewFileConfig a u) prior).cache ∧
    (∀ ns sa : String,
      Get (Load unmarshal (loadAll unmarshal (NewFileConfig a u) prior) (some bytes)).1 ns sa
        = Get (loadAll unmarshal (NewFileConfig a u) prior) ns sa) ∧
    (∀ ns sa : String,
      Get (loadAll unmarshal (NewFileConfig a u) (prior ++ [none, some bytes])) ns sa = none ∧
      Get (loadAll unmarshal (NewFileConfig a u) (prior ++ [some [], some bytes])) ns sa = none) := by
  refine ⟨?_, ?_, ?_, ?_, ?_⟩
  · rw [Load_error unmarshal _ bytes err hne hparse]
    rfl
  · rw [Load_error unmarshal _ bytes err hne hparse]
  · rw [Load_error unmarshal _ bytes err hne hparse]
  · intro ns sa
    rw [Load_error unmarshal _ bytes err hne hparse]
  · intro ns sa
    simp only [loadAll_append]
    simp only [loadAll_cons, loadAll_nil, Load_error unmarshal _ bytes err hne hparse,
      Load_nil, Load_empty]
    exact ⟨Get_nil _ rfl ns sa, Get_nil _ rfl ns sa⟩

/-- Witness of C2: `bad json` after the default config was loaded. -/
theorem load_malformed_no_mutation_witness :
    badJson ≠ [] ∧ sampleUnmarshal badJson = .error "invalid character" ∧
    Get (Load sampleUnmarshal (loadAll sampleUnmarshal (NewFileConfig "aud" "uri")
        [some defaultConfigObjectBytes]) (some badJson)).1 "foo" "ns-foo-sa"
      = Get (loadAll sampleUnmarshal (NewFileConfig "aud" "uri")
        [some defaultConfigObjectBytes]) "foo" "ns-foo-sa" :=
  ⟨by decide, by decide,
    (load_malformed_no_mutation sampleUnmarshal "aud" "uri" [some defaultConfigObjectBytes]
      badJson "invalid character" (by decide) (by decide)).2.2.2.1 "foo" "ns-foo-sa"⟩

/-- Claim C3: in every state reached from `NewFileConfig` by `Load` calls, `Load`
with nil content and `Load` with a zero-length byte slice both return no error,
and afterwards `Get` returns `nil` for every namespace and service account. -/
theorem load_empty_clears (unmarshal : Unmarshal) (a u : String)
    (prior : List (Option (List UInt8))) :
    (Load unmarshal (loadAll unmarshal (NewFileConfig a u) prior) none).2 = none ∧
    (Load unmarshal (loadAll unmarshal (NewFileConfig a u) prior) (some [])).2 = none ∧
    ∀ ns sa : String,
      Get (Load unmarshal (loadAll unmarshal (NewFileConfig a u) prior) none).1 ns sa = none ∧
      Get (Load unmarshal (loadAll unmarshal (NewFileConfig a u) prior) (some [])).1 ns sa = none :=
  ⟨rfl, rfl, fun ns sa => ⟨Get_nil _ rfl ns sa, Get_nil _ rfl ns sa⟩⟩

/-- Claim C4: `Get` on a cache freshly returned by `NewFileConfig a u`, before any
`Load`, returns `nil` for every namespace and service account. -/
theorem get_before_load (a u ns sa : String) :
    Get (NewFileConfig a u) ns sa = none := by
  simp [Get, getCacheItem, NewFileConfig, Finmap.lookup_empty]

/-- Claim C5: in every state and for every content, `Load` returns an error exactly
when the content is non-empty (not nil, length above zero) and `json.Unmarshal`
fails on it; nil content and zero-length content give no error, and content that
parses gives no error. -/
theorem load_error_iff (unmarshal : Unmarshal) (f : FileConfig)
    (content : Option (List UInt8)) :
    ((Load unmarshal f content).2.isSome = true ↔
      ∃ bytes, content = some bytes ∧ 0 < bytes.length ∧ ∃ err, unmarshal bytes = .error err) ∧
    (Load unmarshal f none).2 = none ∧
    (Load unmarshal f (some [])).2 = none ∧
    (∀ bytes, (∃ o, unmarshal bytes = .ok o) → (Load unmarshal f (some bytes)).2 = none) := by
  refine ⟨?_, rfl, rfl, ?_⟩
  · cases content with
    | none => simp [Load]
    | some bytes =>
      by_cases hlen : bytes.length = 0
      · simp [Load, hlen]
      · cases hp : unmarshal bytes with
        | error err => simp [Load, hlen, hp, Nat.pos_of_ne_zero hlen]
        | ok o => simp [Load, hlen, hp]
  · rintro bytes ⟨o, ho⟩
    by_cases hlen : bytes.length = 0
    · simp [Load, hlen]
    · simp [Load, hlen, ho]

/-- Witness of C5: the default config gives no error and `bad json` gives one. -/
theorem load_error_iff_witness :
    (Load sampleUnmarshal (NewFileConfig "aud" "uri") (some defaultConfigObjectBytes)).2 = none ∧
    (Load sampleUnmarshal (NewFileConfig "aud" "uri") (some badJson)).2.isSome = true :=
  ⟨(load_error_iff sampleUnmarshal (NewFileConfig "aud" "uri") none).2.2.2
      defaultConfigObjectBytes ⟨defaultConfigObject, by decide⟩,
   (load_error_iff sampleUnmarshal (NewFileConfig "aud" "uri") (some badJson)).1.2
      ⟨badJson, rfl, by decide, "invalid character", by decide⟩⟩

/-- Claim C6: a successful `Load` is a full replacement. For content that is nil,
zero-length or parses, and two states reached from `NewFileConfig a u` by any two
sequences of `Load` calls, the raw object and the snapshot after `Load` of that
content are the same from both states; and an identity that the content does not
list is not matched after the `Load`, whatever was matched before. -/
theorem load_full_replacement (unmarshal : Unmarshal) (a u : String)
    (prior₁ prior₂ : List (Option (List UInt8))) (content : Option (List UInt8))
    (hvalid : content = none ∨ content = some [] ∨
      ∃ bytes configObject, content = some bytes ∧ unmarshal bytes = .ok configObject) :
    (Load unmarshal (loadAll unmarshal (NewFileConfig a u) prior₁) content).1.identityConfigObject
      = (Load unmarshal (loadAll unmarshal (NewFileConfig a u) prior₂) content).1.identityConfigObject ∧
    (Load unmarshal (loadAll unmarshal (NewFileConfig a u) prior₁) content).1.cache
      = (Load unmarshal (loadAll unmarshal (NewFileConfig a u) prior₂) content).1.cache ∧
    ∀ ns sa : String,
      ({ Namespace := ns, ServiceAccount := sa } : Identity) ∉ listedIdentities unmarshal content →
      Get (Load unmarshal (loadAll unmarshal (NewFileConfig a u) prior₁) content).1 ns sa = none := by
  rcases hvalid with h | h | ⟨bytes, configObject, h, hp⟩
  · subst h
    exact ⟨rfl, rfl, fun ns sa _ => Get_nil _ rfl ns sa⟩
  · subst h
    exact ⟨rfl, rfl, fun ns sa _ => Get_nil _ rfl ns sa⟩
  · subst h
    by_cases hne : bytes = []
    · subst hne
      exact ⟨rfl, rfl, fun ns sa _ => Get_nil _ rfl ns sa⟩
    · rw [Load_ok unmarshal _ bytes configObject hne hp,
        Load_ok unmarshal _ bytes configObject hne hp,
        listedIdentities_ok unmarshal bytes configObject hne hp]
      refine ⟨rfl, rfl, fun ns sa hns => ?_⟩
      rw [Get_buildCache _ configObject.Identities rfl, if_neg hns]

set_option maxRecDepth 100000

/-- Witness of C6: the default config loaded over a state that matches
`new-ns/new-sa` and over a cleared state. -/
theorem load_full_replacement_witness :
    (Load sampleUnmarshal (loadAll sampleUnmarshal (NewFileConfig "aud" "uri")
        [some newConfigObjectBytes]) (some defaultConfigObjectBytes)).1.cache
      = (Load sampleUnmarshal (loadAll sampleUnmarshal (NewFileConfig "aud" "uri")
        [none]) (some defaultConfigObjectBytes)).1.cache ∧
    Get (loadAll sampleUnmarshal (NewFileConfig "aud" "uri") [some newConfigObjectBytes])
      "new-ns" "new-sa" = some { Audience := "aud", FullUri := "uri" } ∧
    Get (Load sampleUnmarshal (loadAll sampleUnmarshal (NewFileConfig "aud" "uri")
        [some newConfigObjectBytes]) (some defaultConfigObjectBytes)).1 "new-ns" "new-sa" = none :=
  ⟨(load_full_replacement sampleUnmarshal "aud" "uri" [some newConfigObjectBytes] [none]
      (some defaultConfigObjectBytes)
      (Or.inr (Or.inr ⟨defaultConfigObjectBytes, defaultConfigObject, rfl, by decide⟩))).2.1,
   by decide,
   (load_full_replacement sampleUnmarshal "aud" "uri" [some newConfigObjectBytes] [none]
      (some defaultConfigObjectBytes)
      (Or.inr (Or.inr ⟨defaultConfigObjectBytes, defaultConfigObject, rfl, by decide⟩))).2.2
      "new-ns" "new-sa" (by decide)⟩

/-- Claim C7: after `Load` of content parsing to a list `L` followed by `Load` of
content parsing to `L` with an identity `i` appended, `Get` on `i` returns a match,
and for every identity `j` of `L`, `Get` on `j` returns after the second `Load` the
same match as after the first, carrying the audience and full URI of the cache. -/
theorem load_appended_identity (unmarshal : Unmarshal) (a u : String)
    (prior : List (Option (List UInt8))) (bytes₁ bytes₂ : List UInt8)
    (old new : IdentityConfigObject) (i : Identity)
    (hne₁ : bytes₁ ≠ []) (hne₂ : bytes₂ ≠ [])
    (hparse₁ : unmarshal bytes₁ = .ok old) (hparse₂ : unmarshal bytes₂ = .ok new)
    (happend : new.Identities = old.Identities ++ [i]) :
    Get (loadAll unmarshal (NewFileConfig a u) (prior ++ [some bytes₁, some bytes₂]))
        i.Namespace i.ServiceAccount = some { Audience := a, FullUri := u } ∧
    ∀ j : Identity, j ∈ old.Identities →
      Get (loadAll unmarshal (NewFileConfig a u) (prior ++ [some bytes₁, some bytes₂]))
          j.Namespace j.ServiceAccount
        = Get (loadAll unmarshal (NewFileConfig a u) (prior ++ [some bytes₁]))
          j.Namespace j.ServiceAccount ∧
      Get (loadAll unmarshal (NewFileConfig a u) (prior ++ [some bytes₁]))
          j.Namespace j.ServiceAccount = some { Audience := a, FullUri := u } := by
  have haud := loadAll_audience unmarshal prior (NewFileConfig a u)
  have haud₁ : (loadAll unmarshal (NewFileConfig a u) prior).containerCredentialsAudience = a :=
    haud.1
  have haud₂ : (loadAll unmarshal (NewFileConfig a u) prior).containersCredentialsFullUri = u :=
    haud.2
  simp only [loadAll_append, loadAll_cons, loadAll_nil]
  rw [Load_ok unmarshal _ bytes₁ old hne₁ hparse₁]
  rw [Load_ok unmarshal _ bytes₂ new hne₂ hparse₂]
  refine ⟨?_, fun j hj => ⟨?_, ?_⟩⟩
  · rw [Get_buildCache _ new.Identities rfl, if_pos (by simp [happend])]
    simp only [haud₁, haud₂]
  · rw [Get_buildCache _ new.Identities rfl, Get_buildCache _ old.Identities rfl,
      if_pos (by simp [happend, hj]), if_pos hj]
  · rw [Get_buildCache _ old.Identities rfl, if_pos hj]
    simp only [haud₁, haud₂]

/-- Witness of C7: the default config, then the default config with
`new-ns/new-sa` appended, as in `TestFileConfig_Watcher`. -/
theorem load_appended_identity_witness :
    defaultConfigObjectBytes ≠ [] ∧ newConfigObjectBytes ≠ [] ∧
    sampleUnmarshal defaultConfigObjectBytes = .ok defaultConfigObject ∧
    sampleUnmarshal newConfigObjectBytes = .ok newConfigObject ∧
    newConfigObject.Identities = defaultConfigObject.Identities ++
      [{ Namespace := "new-ns", ServiceAccount := "new-sa" }] ∧
    Get (loadAll sampleUnmarshal (NewFileConfig "aud" "uri")
        ([] ++ [some defaultConfigObjectBytes, some newConfigObjectBytes]))
        "new-ns" "new-sa" = some { Audience := "aud", FullUri := "uri" } :=
  ⟨by decide, by decide, by decide, by decide, rfl,
    (load_appended_identity sampleUnmarshal "aud" "uri" [] defaultConfigObjectBytes
      newConfigObjectBytes defaultConfigObject newConfigObject
      { Namespace := "new-ns", ServiceAccount := "new-sa" }
      (by decide) (by decide) (by decide) (by decide) rfl).1⟩

/-- Claim C8: for every finite sequence of `Load` calls on a cache from
`NewFileConfig`, at every point `n` of the sequence, the identities for which `Get`
returns a match are the identities listed by one `Load` call, the most recent one
up to that point that returned no error; no identity is matched when there is no
such call or when it had empty content. That call, when there is one, is a call of
the sequence, so the matched set is never a mixture of two calls. -/
theorem get_matches_last_successful_load (unmarshal : Unmarshal) (a u : String)
    (contents : List (Option (List UInt8))) (n : Nat) :
    (∀ ns sa : String,
      (Get (loadAll unmarshal (NewFileConfig a u) (contents.take n)) ns sa).isSome = true ↔
        ({ Namespace := ns, ServiceAccount := sa } : Identity) ∈
          installedIdentities unmarshal (NewFileConfig a u) (contents.take n)) ∧
    (lastSuccessful unmarshal (NewFileConfig a u) (contents.take n) none = none ∨
      ∃ content, content ∈ contents.take n ∧
        lastSuccessful unmarshal (NewFileConfig a u) (contents.take n) none = some content) := by
  refine ⟨fun ns sa => ?_, lastSuccessful_mem unmarshal _ _ none⟩
  rw [Get_isSome, getCacheItem_loadAll unmarshal (contents.take n) (NewFileConfig a u) none _
    (by simp [getCacheItem, NewFileConfig, Finmap.lookup_empty])]
  unfold installedIdentities
  cases lastSuccessful unmarshal (NewFileConfig a u) (contents.take n) none <;> simp

/-- Claim C9: in every state reached from `NewFileConfig` by `Load` calls, an
identity is a key of the snapshot exactly when it occurs in the `Identities` list
of the stored raw object (a nil raw object lists nothing); and every `Load`, from
any state, either returns an error and changes neither, or returns no error and
sets both from its content: both to nil for nil or zero-length content, the raw
object to the decoded object and the snapshot to the map built from that object
otherwise. -/
theorem snapshot_agrees_with_raw_object (unmarshal : Unmarshal) (a u : String)
    (prior : List (Option (List UInt8))) :
    (∀ i : Identity,
      inSnapshot (loadAll unmarshal (NewFileConfig a u) prior) i = true ↔
        i ∈ rawIdentities (loadAll unmarshal (NewFileConfig a u) prior)) ∧
    ∀ (f : FileConfig) (content : Option (List UInt8)),
      ((Load unmarshal f content).2.isSome = true ∧
        (Load unmarshal f content).1.identityConfigObject = f.identityConfigObject ∧
        (Load unmarshal f content).1.cache = f.cache) ∨
      ((Load unmarshal f content).2 = none ∧ (content = none ∨ content = some []) ∧
        (Load unmarshal f content).1.identityConfigObject = none ∧
        (Load unmarshal f content).1.cache = none) ∨
      ((Load unmarshal f content).2 = none ∧
        ∃ bytes configObject, content = some bytes ∧ unmarshal bytes = .ok configObject ∧
          (Load unmarshal f content).1.identityConfigObject = some configObject ∧
          (Load unmarshal f content).1.cache = some (buildCache configObject.Identities)) := by
  constructor
  · have key : ∀ (contents : List (Option (List UInt8))) (f : FileConfig),
        (∀ i, inSnapshot f i = true ↔ i ∈ rawIdentities f) →
        ∀ i, inSnapshot (loadAll unmarshal f contents) i = true ↔
          i ∈ rawIdentities (loadAll unmarshal f contents) := by
      intro contents
      induction contents with
      | nil => exact fun f h => h
      | cons c cs ih =>
        intro f h
        rw [loadAll_cons]
        exact ih _ (snapshot_agrees_Load unmarshal f c h)
    apply key
    intro i
    simp [inSnapshot, rawIdentities, NewFileConfig, Finmap.not_mem_empty]
  · intro f content
    rcases Load_cases unmarshal f content with ⟨herr, hsame, -⟩ | h |
      ⟨hok, bytes, configObject, hc, -, hp, hraw, hcache⟩
    · exact Or.inl ⟨herr, by rw [hsame], by rw [hsame]⟩
    · exact Or.inr (Or.inl h)
    · exact Or.inr (Or.inr ⟨hok, bytes, configObject, hc, hp, hraw, hcache⟩)

/-- Claim C10: for a cache built by `NewFileConfig a u`, after any sequence of
`Load` calls (successful, clearing or failing) and `Get` calls, the stored audience
and full URI are still `a` and `u`, and every result of `Get` is either `nil` or
the patch config with `Audience = a` and `FullUri = u`. -/
theorem patch_values_constant (unmarshal : Unmarshal) (a u : String) (calls : List Call) :
    (runCalls unmarshal (NewFileConfig a u) calls).containerCredentialsAudience = a ∧
    (runCalls unmarshal (NewFileConfig a u) calls).containersCredentialsFullUri = u ∧
    ∀ ns sa : String,
      Get (runCalls unmarshal (NewFileConfig a u) calls) ns sa = none ∨
      Get (runCalls unmarshal (NewFileConfig a u) calls) ns sa =
        some { Audience := a, FullUri := u } := by
  have haud := runCalls_audience unmarshal calls (NewFileConfig a u)
  have haud₁ : (runCalls unmarshal (NewFileConfig a u) calls).containerCredentialsAudience = a :=
    haud.1
  have haud₂ : (runCalls unmarshal (NewFileConfig a u) calls).containersCredentialsFullUri = u :=
    haud.2
  refine ⟨haud₁, haud₂, fun ns sa => ?_⟩
  unfold Get
  cases h : getCacheItem (runCalls unmarshal (NewFileConfig a u) calls)
      { Namespace := ns, ServiceAccount := sa }
  · exact Or.inl (by simp [h])
  · right
    simp [h, haud₁, haud₂]

/-- Counterexample of C11: on the default config `Load` parses and inserts into
the new map while the write lock is held, and no step comes before the lock is
taken. -/
theorem load_constructs_under_lock :
    (stepsUnderLock false
      (LoadSteps sampleUnmarshal (some defaultConfigObjectBytes))).any Step.isConstruction = true ∧
    Step.jsonUnmarshal ∈
      stepsUnderLock false (LoadSteps sampleUnmarshal (some defaultConfigObjectBytes)) ∧
    Step.insert { Namespace := "foo", ServiceAccount := "ns-foo-sa" } ∈
      stepsUnderLock false (LoadSteps sampleUnmarshal (some defaultConfigObjectBytes)) ∧
    (LoadSteps sampleUnmarshal (some defaultConfigObjectBytes)).head? = some Step.lock := by
  decide

/-- Claim C11, amended: `Load` takes the write lock as its first step and releases
it as its last step on every return path, so every other step runs while the lock
is held: first the construction steps (the parse of non-empty content, then the
creation of the new map and its insertions), then the installation steps (the
assignments to the raw object and to the snapshot). No construction step follows
an installation step, and running the steps gives the receiver that `Load`
returns, with the lock released. -/
theorem load_steps_under_lock (unmarshal : Unmarshal) (f : FileConfig)
    (content : Option (List UInt8)) :
    ∃ build install : List Step,
      LoadSteps unmarshal content = [Step.lock] ++ build ++ install ++ [Step.unlock] ∧
      build.all Step.isConstruction = true ∧
      install.all Step.isInstall = true ∧
      stepsUnderLock false (LoadSteps unmarshal content) = build ++ install ∧
      (content = none ∨ content = some [] ∨ Step.jsonUnmarshal ∈ build) ∧
      (runSteps { f := f, newCache := ∅, locked := false } (LoadSteps unmarshal content)).f
        = (Load unmarshal f content).1 ∧
      (runSteps { f := f, newCache := ∅, locked := false }
        (LoadSteps unmarshal content)).locked = false := by
  cases content with
  | none =>
    exact ⟨[], [.setObject none, .setCacheNil], rfl, rfl, rfl, rfl, Or.inl rfl, rfl, rfl⟩
  | some bytes =>
    by_cases hne : bytes = []
    · subst hne
      exact ⟨[], [.setObject none, .setCacheNil], rfl, rfl, rfl, rfl, Or.inr (Or.inl rfl),
        rfl, rfl⟩
    · have hlen : ¬ bytes.length = 0 := by simpa using hne
      cases hp : unmarshal bytes with
      | error err =>
        have hsteps : LoadSteps unmarshal (some bytes) = [.lock, .jsonUnmarshal, .unlock] := by
          simp only [LoadSteps, hlen, if_false, hp]
        rw [hsteps, Load_error unmarshal f bytes err hne hp]
        exact ⟨[.jsonUnmarshal], [], rfl, rfl, rfl, rfl,
          Or.inr (Or.inr (List.mem_singleton.mpr rfl)), rfl, rfl⟩
      | ok configObject =>
        have hsteps : LoadSteps unmarshal (some bytes) =
            [.lock, .jsonUnmarshal, .makeCache] ++ configObject.Identities.map Step.insert ++
              [.setObject (some configObject), .setCacheNew, .unlock] := by
          simp only [LoadSteps, hlen, if_false, hp]
        rw [hsteps, Load_ok unmarshal f bytes configObject hne hp]
        refine ⟨[.jsonUnmarshal, .makeCache] ++ configObject.Identities.map Step.insert,
          [.setObject (some configObject), .setCacheNew], ?_, ?_, rfl, ?_, ?_, ?_, ?_⟩
        · simp
        · rw [List.all_append, all_isConstruction_insert]
          rfl
        · show stepsUnderLock false (Step.lock :: Step.jsonUnmarshal :: Step.makeCache ::
              (configObject.Identities.map Step.insert ++
                [.setObject (some configObject), .setCacheNew, .unlock])) = _
          simp only [stepsUnderLock, if_true, stepsUnderLock_insert]
          rfl
        · exact Or.inr (Or.inr (by simp))
        · rw [runSteps_append, runSteps_append, runSteps_insert]
          rfl
        · rw [runSteps_append, runSteps_append, runSteps_insert]
          rfl

/-- Counterexample of C12: `Load` of the encoding of a config object does not
store that object for every object. The nil object is encoded as `null`, which is
not empty and decodes without error to the zero object: `Load` returns no error
and stores a raw object that is present, not nil. -/
theorem load_marshal_nil_object :
    sampleMarshalPointer none ≠ [] ∧
    nullUnmarshal (sampleMarshalPointer none) = .ok { Identities := [] } ∧
    (Load nullUnmarshal (NewFileConfig "aud" "uri")
        (some (sampleMarshalPointer none))).2 = none ∧
    (Load nullUnmarshal (NewFileConfig "aud" "uri")
        (some (sampleMarshalPointer none))).1.identityConfigObject =
      some { Identities := [] } ∧
    (Load nullUnmarshal (NewFileConfig "aud" "uri")
        (some (sampleMarshalPointer none))).1.identityConfigObject ≠ none := by
  decide

/-- Claim C12, amended: after `Load` of non-empty content that parses to a config
object, the stored raw object is present and equal to that object, its `Identities`
list in the parsed order with duplicates kept; after `Load` of nil or zero-length
content the stored raw object is nil. For an encoder `marshal` and a config object
`o`, nil or not, `Load` of `marshal o` returns no error and stores a raw object
equal to `o` exactly when the decoder reads `o` back: `o` is present, its encoding
is not empty and decodes to the object `o` points to, or `o` is nil and its
encoding is empty. -/
theorem load_stores_raw_object (unmarshal : Unmarshal)
    (marshal : Option IdentityConfigObject → List UInt8) (f : FileConfig) (bytes : List UInt8)
    (parsed : IdentityConfigObject) (o : Option IdentityConfigObject)
    (hne : bytes ≠ []) (hparse : unmarshal bytes = .ok parsed) :
    (Load unmarshal f (some bytes)).1.identityConfigObject = some parsed ∧
    rawIdentities (Load unmarshal f (some bytes)).1 = parsed.Identities ∧
    (Load unmarshal f none).1.identityConfigObject = none ∧
    (Load unmarshal f (some [])).1.identityConfigObject = none ∧
    (((Load unmarshal f (some (marshal o))).2 = none ∧
        (Load unmarshal f (some (marshal o))).1.identityConfigObject = o) ↔
      ((o = none ∧ marshal o = []) ∨
        ∃ v, o = some v ∧ marshal o ≠ [] ∧ unmarshal (marshal o) = .ok v)) := by
  refine ⟨?_, ?_, rfl, rfl, ?_⟩
  · rw [Load_ok unmarshal f bytes parsed hne hparse]
  · rw [Load_ok unmarshal f bytes parsed hne hparse]
    rfl
  · by_cases hm : marshal o = []
    · rw [hm, Load_empty]
      constructor
      · rintro ⟨-, ho⟩
        exact Or.inl ⟨ho.symm, rfl⟩
      · rintro (⟨ho, -⟩ | ⟨v, -, hv, -⟩)
        · exact ⟨rfl, ho.symm⟩
        · exact absurd rfl hv
    · cases hp : unmarshal (marshal o) with
      | error err =>
        rw [Load_error unmarshal f (marshal o) err hm hp]
        constructor
        · rintro ⟨herr, -⟩
          cases herr
        · rintro (⟨-, hnil⟩ | ⟨v, -, -, hv⟩)
          · exact absurd hnil hm
          · cases hv
      | ok parsed₂ =>
        rw [Load_ok unmarshal f (marshal o) parsed₂ hm hp]
        constructor
        · rintro ⟨-, ho⟩
          exact Or.inr ⟨parsed₂, ho.symm, hm, rfl⟩
        · rintro (⟨-, hnil⟩ | ⟨v, ho, -, hv⟩)
          · exact absurd hnil hm
          · cases hv
            exact ⟨rfl, ho.symm⟩

/-- Witness of C12: a content that lists `foo/ns-foo-sa` twice, after `bar`, and
the encoding of the default config object, which the decoder reads back. -/
theorem load_stores_raw_object_witness :
    duplicatedConfigObjectBytes ≠ [] ∧
    extendedUnmarshal duplicatedConfigObjectBytes = .ok duplicatedConfigObject ∧
    rawIdentities (Load extendedUnmarshal (NewFileConfig "aud" "uri")
        (some duplicatedConfigObjectBytes)).1 =
      [ { Namespace := "bar", ServiceAccount := "ns-bar-sa" },
        { Namespace := "foo", ServiceAccount := "ns-foo-sa" },
        { Namespace := "foo", ServiceAccount := "ns-foo-sa" } ] ∧
    ((Load extendedUnmarshal (NewFileConfig "aud" "uri")
        (some (sampleMarshalPointer (some defaultConfigObject)))).2 = none ∧
      (Load extendedUnmarshal (NewFileConfig "aud" "uri")
        (some (sampleMarshalPointer (some defaultConfigObject)))).1.identityConfigObject =
      some defaultConfigObject) :=
  ⟨by decide, by decide,
    (load_stores_raw_object extendedUnmarshal sampleMarshalPointer (NewFileConfig "aud" "uri")
      duplicatedConfigObjectBytes duplicatedConfigObject (some defaultConfigObject)
      (by decide) (by decide)).2.1,
    (load_stores_raw_object extendedUnmarshal sampleMarshalPointer (NewFileConfig "aud" "uri")
      duplicatedConfigObjectBytes duplicatedConfigObject (some defaultConfigObject)
      (by decide) (by decide)).2.2.2.2.mpr
      (Or.inr ⟨defaultConfigObject, rfl, by decide, by decide⟩)⟩

/-- Claim C13: the snapshot built by a successful `Load` is a set. Its length is
the number of distinct identities of the parsed list (2 for the default config
object), every key it holds maps to `true`, and two contents whose lists hold the
same identities, in any order and with any multiplicities, give equal snapshots
and the same `Get` result for every input. -/
theorem snapshot_set_semantics (unmarshal : Unmarshal) (f : FileConfig)
    (bytes₁ bytes₂ : List UInt8) (o₁ o₂ : IdentityConfigObject)
    (hne₁ : bytes₁ ≠ []) (hne₂ : bytes₂ ≠ [])
    (hparse₁ : unmarshal bytes₁ = .ok o₁) (hparse₂ : unmarshal bytes₂ = .ok o₂)
    (hsame : ∀ i : Identity, i ∈ o₁.Identities ↔ i ∈ o₂.Identities) :
    cacheLen (Load unmarshal f (some bytes₁)).1 = o₁.Identities.dedup.length ∧
    (buildCache defaultConfigObject.Identities).keys.card = 2 ∧
    (Load unmarshal f (some bytes₁)).1.cache = some (buildCache o₁.Identities) ∧
    (∀ i : Identity, (buildCache o₁.Identities).lookup i = none ∨
      (buildCache o₁.Identities).lookup i = some true) ∧
    (Load unmarshal f (some bytes₁)).1.cache = (Load unmarshal f (some bytes₂)).1.cache ∧
    ∀ ns sa : String,
      Get (Load unmarshal f (some bytes₁)).1 ns sa =
        Get (Load unmarshal f (some bytes₂)).1 ns sa := by
  rw [Load_ok unmarshal f bytes₁ o₁ hne₁ hparse₁, Load_ok unmarshal f bytes₂ o₂ hne₂ hparse₂]
  have hcache : buildCache o₁.Identities = buildCache o₂.Identities :=
    buildCache_congr _ _ hsame
  refine ⟨?_, ?_, rfl, ?_, ?_, ?_⟩
  · show (buildCache o₁.Identities).keys.card = _
    rw [keys_buildCache, List.card_toFinset]
  · rw [keys_buildCache]
    decide
  · intro i
    rw [lookup_buildCache]
    by_cases hi : i ∈ o₁.Identities
    · exact Or.inr (if_pos hi)
    · exact Or.inl (if_neg hi)
  · show some (buildCache o₁.Identities) = some (buildCache o₂.Identities)
    rw [hcache]
  · intro ns sa
    rw [Get_buildCache _ o₁.Identities rfl, Get_buildCache _ o₂.Identities rfl]
    by_cases hi : ({ Namespace := ns, ServiceAccount := sa } : Identity) ∈ o₁.Identities
    · rw [if_pos hi, if_pos ((hsame _).mp hi)]
    · rw [if_neg hi, if_neg (fun hy => hi ((hsame _).mpr hy))]

/-- Witness of C13: the default config (`foo`, `bar`) and a content listing `bar`,
`foo`, `foo` give snapshots of length 2 that are equal. -/
theorem snapshot_set_semantics_witness :
    defaultConfigObjectBytes ≠ [] ∧ duplicatedConfigObjectBytes ≠ [] ∧
    extendedUnmarshal defaultConfigObjectBytes = .ok defaultConfigObject ∧
    extendedUnmarshal duplicatedConfigObjectBytes = .ok duplicatedConfigObject ∧
    duplicatedConfigObject.Identities.dedup.length = 2 ∧
    cacheLen (Load extendedUnmarshal (NewFileConfig "aud" "uri")
        (some duplicatedConfigObjectBytes)).1 = duplicatedConfigObject.Identities.dedup.length ∧
    (Load extendedUnmarshal (NewFileConfig "aud" "uri")
        (some duplicatedConfigObjectBytes)).1.cache =
      (Load extendedUnmarshal (NewFileConfig "aud" "uri")
        (some defaultConfigObjectBytes)).1.cache :=
  ⟨by decide, by decide, by decide, by decide, by decide,
    (snapshot_set_semantics extendedUnmarshal (NewFileConfig "aud" "uri")
      duplicatedConfigObjectBytes defaultConfigObjectBytes duplicatedConfigObject
      defaultConfigObject (by decide) (by decide) (by decide) (by decide)
      (fun i => by simp [duplicatedConfigObject, defaultConfigObject, or_comm])).1,
    (snapshot_set_semantics extendedUnmarshal (NewFileConfig "aud" "uri")
      duplicatedConfigObjectBytes defaultConfigObjectBytes duplicatedConfigObject
      defaultConfigObject (by decide) (by decide) (by decide) (by decide)
      (fun i => by simp [duplicatedConfigObject, defaultConfigObject, or_comm])).2.2.2.2.1⟩

/-- Counterexample of C14: the cache returned by `NewFileConfig` does not have both
the raw object and the snapshot nil, and it is not the state that `Load` with nil
content produces: its snapshot is a map that is not nil. -/
theorem new_file_config_cache_not_nil :
    ¬ ((NewFileConfig "aud" "uri").identityConfigObject = none ∧
        (NewFileConfig "aud" "uri").cache = none) ∧
    (NewFileConfig "aud" "uri").cache ≠
      (Load sampleUnmarshal (NewFileConfig "aud" "uri") none).1.cache ∧
    NewFileConfig "aud" "uri" ≠ (Load sampleUnmarshal (NewFileConfig "aud" "uri") none).1 := by
  decide

/-- Claim C14, amended: a cache returned by `NewFileConfig` has a nil raw object and
a snapshot that is a present, empty map of length 0. `Load` with nil or zero-length
content gives the same state but for the snapshot, which it sets to nil; `Get`
returns `nil` for every input in both states. -/
theorem new_file_config_state (unmarshal : Unmarshal) (a u : String) :
    (NewFileConfig a u).identityConfigObject = none ∧
    (NewFileConfig a u).cache = some ∅ ∧
    cacheLen (NewFileConfig a u) = 0 ∧
    (Load unmarshal (NewFileConfig a u) none).1 = { NewFileConfig a u with cache := none } ∧
    (Load unmarshal (NewFileConfig a u) (some [])).1 =
      { NewFileConfig a u with cache := none } ∧
    ∀ ns sa : String,
      Get (NewFileConfig a u) ns sa = none ∧
      Get (Load unmarshal (NewFileConfig a u) none).1 ns sa = none ∧
      Get (Load unmarshal (NewFileConfig a u) (some [])).1 ns sa = none := by
  refine ⟨rfl, rfl, rfl, rfl, rfl, fun ns sa => ⟨?_, Get_nil _ rfl ns sa, Get_nil _ rfl ns sa⟩⟩
  simp [Get, getCacheItem, NewFileConfig, Finmap.lookup_empty]

/-- Claim C15: for non-empty content that parses to a config object with no
identities, `Load` returns no error and leaves the raw object present and the
snapshot a present, empty map. This differs from the state after `Load` of nil
content, where both are nil, while `Get` returns `nil` for every input in both
states. -/
theorem load_no_identities (unmarshal : Unmarshal) (f : FileConfig) (bytes : List UInt8)
    (configObject : IdentityConfigObject) (hne : bytes ≠ [])
    (hparse : unmarshal bytes = .ok configObject) (hempty : configObject.Identities = []) :
    (Load unmarshal f (some bytes)).2 = none ∧
    (Load unmarshal f (some bytes)).1.identityConfigObject = some configObject ∧
    (Load unmarshal f (some bytes)).1.cache = some ∅ ∧
    cacheLen (Load unmarshal f (some bytes)).1 = 0 ∧
    (Load unmarshal f (some bytes)).1.identityConfigObject ≠
      (Load unmarshal f none).1.identityConfigObject ∧
    (Load unmarshal f (some bytes)).1.cache ≠ (Load unmarshal f none).1.cache ∧
    ∀ ns sa : String,
      Get (Load unmarshal f (some bytes)).1 ns sa = none ∧
      Get (Load unmarshal f none).1 ns sa = none := by
  rw [Load_ok unmarshal f bytes configObject hne hparse, hempty]
  refine ⟨rfl, rfl, rfl, rfl, ?_, ?_, fun ns sa => ⟨?_, Get_nil _ rfl ns sa⟩⟩
  · simp [Load]
  · simp [Load]
  · rw [Get_buildCache _ [] rfl]
    simp

/-- Witness of C15: the content that lists no identity, loaded over the default
config. -/
theorem load_no_identities_witness :
    emptyConfigObjectBytes ≠ [] ∧
    extendedUnmarshal emptyConfigObjectBytes = .ok { Identities := [] } ∧
    (Load extendedUnmarshal (loadAll extendedUnmarshal (NewFileConfig "aud" "uri")
        [some defaultConfigObjectBytes]) (some emptyConfigObjectBytes)).1.cache = some ∅ ∧
    (Load extendedUnmarshal (loadAll extendedUnmarshal (NewFileConfig "aud" "uri")
        [some defaultConfigObjectBytes]) (some emptyConfigObjectBytes)).1.identityConfigObject =
      some { Identities := [] } :=
  ⟨by decide, by decide,
    (load_no_identities extendedUnmarshal
      (loadAll extendedUnmarshal (NewFileConfig "aud" "uri") [some defaultConfigObjectBytes])
      emptyConfigObjectBytes { Identities := [] } (by decide) (by decide) rfl).2.2.1,
    (load_no_identities extendedUnmarshal
      (loadAll extendedUnmarshal (NewFileConfig "aud" "uri") [some defaultConfigObjectBytes])
      emptyConfigObjectBytes { Identities := [] } (by decide) (by decide) rfl).2.1⟩

/-- Claim C16: `Get` is read-only and total. In every state reached from
`NewFileConfig a u` by `Load` calls, a `Get` call leaves the receiver as it was
(raw object, snapshot, audience and full URI), its result is the patch config
`(a, u)` when the identity is a key of the snapshot and `nil` when it is not, on a
nil snapshot too, and a second `Get` with the same arguments returns the same
result. -/
theorem get_read_only_total (unmarshal : Unmarshal) (a u : String)
    (prior : List (Option (List UInt8))) (ns sa : String) :
    Call.run unmarshal (loadAll unmarshal (NewFileConfig a u) prior) (Call.get ns sa) =
      loadAll unmarshal (NewFileConfig a u) prior ∧
    Get (loadAll unmarshal (NewFileConfig a u) prior) ns sa =
      (if inSnapshot (loadAll unmarshal (NewFileConfig a u) prior)
          { Namespace := ns, ServiceAccount := sa } = true
        then some { Audience := a, FullUri := u } else none) ∧
    Get (Load unmarshal (loadAll unmarshal (NewFileConfig a u) prior) none).1 ns sa = none ∧
    Get (runCalls unmarshal (loadAll unmarshal (NewFileConfig a u) prior)
        [Call.get ns sa]) ns sa =
      Get (loadAll unmarshal (NewFileConfig a u) prior) ns sa := by
  refine ⟨rfl, ?_, Get_nil _ rfl ns sa, rfl⟩
  have haud := loadAll_audience unmarshal prior (NewFileConfig a u)
  have hcache := loadAll_cache unmarshal prior (NewFileConfig a u) (Or.inr ⟨[], rfl⟩)
  unfold Get
  simp only [getCacheItem_eq_inSnapshot _ hcache, haud.1, haud.2]
  rfl

end config
